import Mathlib

/-!
Verification development for the `yam` multi-stage application scheduler
(`src/app.rs`).  The scheduler data model (stages, busy/spare lists, the
deferred command queue, issuance validation and the apply/run loop) is
embedded from `src/app.rs`.  Stage schedules (`legion::Schedule`) are opaque
executable units, represented by an arbitrary type parameter `σ`; executing a
unit is recorded in a log carried by the `Resources` model.  Durations are
rationals.
-/

set_option maxHeartbeats 1000000

/-- Modelled from the spec: the Pulse Timer lives in `src/misc.rs`, which is
not among the provided sources.  Attributes per spec section 3:
`ticks_per_second` (positive integer) and `accumulated_time` (non-negative
duration). -/
structure PulseTimer where
  ticks_per_second : Nat
  accumulated_time : ℚ
  deriving DecidableEq

/-- Modelled from the spec: a timer is created with a stage from the target
frequency; the accumulator starts at zero. -/
def PulseTimer.new (frequency : Nat) : PulseTimer :=
  { ticks_per_second := frequency, accumulated_time := 0 }

/-- The tick interval `1 / ticks_per_second` (spec section 3). -/
def PulseTimer.interval (t : PulseTimer) : ℚ :=
  1 / (t.ticks_per_second : ℚ)

/-- Modelled from the spec (section 4.1): `update(delta_time)` adds
`delta_time` to `accumulated_time`; if the accumulator reaches the interval,
one interval is subtracted and `true` is reported for this call — only one
tick is reported per call even if multiple intervals have elapsed; the excess
time is retained. -/
def PulseTimer.update (t : PulseTimer) (delta_time : ℚ) : PulseTimer × Bool :=
  let acc := t.accumulated_time + delta_time
  if t.interval ≤ acc then
    ({ ticks_per_second := t.ticks_per_second, accumulated_time := acc - t.interval }, true)
  else
    ({ ticks_per_second := t.ticks_per_second, accumulated_time := acc }, false)

/-- Modelled from the spec (section 4.1): `set_ticks_per_second` replaces the
frequency directly on the stored timer. -/
def PulseTimer.set_ticks_per_second (t : PulseTimer) (frequency : Nat) : PulseTimer :=
  { t with ticks_per_second := frequency }

/-- Runs a sequence of `update` calls, returning the final timer and the
number of calls that reported a tick. -/
def runUpdates (t : PulseTimer) : List ℚ → PulseTimer × Nat
  | [] => (t, 0)
  | d :: ds =>
    let r := t.update d
    let rest := runUpdates r.1 ds
    (rest.1, (if r.2 then 1 else 0) + rest.2)

/-- `AppStage` (src/app.rs lines 112-119): a named stage with its pulse timer
and the three compiled schedules, kept opaque as values of `σ`. -/
structure AppStage (σ : Type) where
  name : String
  timer : PulseTimer
  startup : σ
  process : σ
  destroy : σ
  deriving DecidableEq

/-- `AppStage::frequency` (line 137) delegates to the timer. -/
def AppStage.frequency {σ : Type} (st : AppStage σ) : Nat :=
  st.timer.ticks_per_second

/-- `AppStage::set_frequency` (line 141). -/
def AppStage.set_frequency {σ : Type} (st : AppStage σ) (frequency : Nat) : AppStage σ :=
  { st with timer := st.timer.set_ticks_per_second frequency }

/-- Model of the resource store as far as the scheduler core touches it: the
most recently published `PulseTimer` resource (from `resources.insert` in
`AppStage::play`) and an append-only log of the schedule units executed, in
execution order. -/
structure Resources (σ : Type) where
  published_timer : Option PulseTimer
  executed : List σ
  deriving DecidableEq

/-- `AppStage::init` (lines 145-147): always executes the startup unit. -/
def AppStage.init {σ : Type} (st : AppStage σ) (res : Resources σ) : Resources σ :=
  { res with executed := res.executed ++ [st.startup] }

/-- `AppStage::play` (lines 149-155): updates the timer with the frame's
elapsed time; if the timer reports a tick, publishes the updated timer into
the resource store and then executes the process unit; otherwise does
nothing further. -/
def AppStage.play {σ : Type} (st : AppStage σ) (delta_time : ℚ) (res : Resources σ) :
    AppStage σ × Resources σ :=
  let r := st.timer.update delta_time
  if r.2 then
    ({ st with timer := r.1 },
     { published_timer := some r.1, executed := res.executed ++ [st.process] })
  else
    ({ st with timer := r.1 }, res)

/-- `AppStage::free` (lines 157-159): always executes the destroy unit. -/
def AppStage.free {σ : Type} (st : AppStage σ) (res : Resources σ) : Resources σ :=
  { res with executed := res.executed ++ [st.destroy] }

/-- `AppCommand` (lines 553-561). -/
inductive AppCommand (σ : Type) where
  | PushStageToWorkBefore (stage : AppStage σ) (after_stage_name : String)
  | PushStageToWork (stage : AppStage σ)
  | PushStageToWorkAfter (stage : AppStage σ) (before_stage_name : String)
  | MakeBusyStageToRest (stage_name : String)
  | SetBusyStageFrequency (stage_name : String) (frequency : Nat)
  | AppQuit
  deriving DecidableEq

/-- `AppSettingsError` (lines 563-570). -/
inductive AppSettingsError (σ : Type) where
  | DuplicateNameInBusy (stage : AppStage σ)
  | DuplicateNameInSpare (stage : AppStage σ)
  | StageNotExist (stage_name : String)
  | StageNotExistInBusy (stage_name : String) (stage : Option (AppStage σ))
  | StageNotExistInSpare (stage_name : String) (stage : Option (AppStage σ))
  deriving DecidableEq

/-- `AppSettings` (lines 288-293).  In the source the busy list is shared
with the run loop through `Rc<RefCell<..>>`; here the single authoritative
copy is a field. -/
structure AppSettings (σ : Type) where
  busy_stages : List (AppStage σ)
  spare_stages : List (AppStage σ)
  commands : List (AppCommand σ)
  deriving DecidableEq

/-- Names of the stages of a list, in list order. -/
def stageNames {σ : Type} (l : List (AppStage σ)) : List String :=
  l.map AppStage.name

/-- `AppSettings::is_in_busy` (lines 399-401). -/
def AppSettings.is_in_busy {σ : Type} (s : AppSettings σ) (stage_name : String) : Bool :=
  s.busy_stages.any (fun st => st.name == stage_name)

/-- `AppSettings::is_in_spare` (lines 403-405). -/
def AppSettings.is_in_spare {σ : Type} (s : AppSettings σ) (stage_name : String) : Bool :=
  s.spare_stages.any (fun st => st.name == stage_name)

/-- Find the index of the first stage with the given name
(`fuck_borrow_checker`, lines 307-314, before the final `unwrap`). -/
def findStageIdx {σ : Type} (stage_name : String) : List (AppStage σ) → Option Nat
  | [] => none
  | st :: rest =>
    if st.name = stage_name then some 0
    else (findStageIdx stage_name rest).map (· + 1)

/-- Remove the first stage with the given name, returning it together with
the remaining list (find-index-then-`Vec::remove`, as in
`take_spare_stage` lines 385-397 and the `MakeBusyStageToRest` arm of
`apply`, lines 329-333). -/
def takeFirstStage {σ : Type} (stage_name : String) :
    List (AppStage σ) → Option (AppStage σ × List (AppStage σ))
  | [] => none
  | st :: rest =>
    if st.name = stage_name then some (st, rest)
    else
      match takeFirstStage stage_name rest with
      | none => none
      | some (x, rest2) => some (x, st :: rest2)

/-- `Vec::insert(index, x)`: insert `x` so that it ends up at position
`index`. -/
def listInsert {α : Type} (index : Nat) (x : α) (l : List α) : List α :=
  l.take index ++ x :: l.drop index

/-- Mutate the frequency of the first stage with the given name
(`SetBusyStageFrequency` arm of `apply`, lines 334-341). -/
def setFirstStageFreq {σ : Type} (stage_name : String) (frequency : Nat) :
    List (AppStage σ) → List (AppStage σ)
  | [] => []
  | st :: rest =>
    if st.name = stage_name then st.set_frequency frequency :: rest
    else st :: setFirstStageFreq stage_name frequency rest

/-- One arm of `AppSettings::apply` (lines 316-346) for a single non-quit
command.  `none` models the `unwrap` panics of `fuck_borrow_checker`
(line 313) and of the `SetBusyStageFrequency` arm (line 339) when the target
name is absent from the busy list. -/
def applyCmd {σ : Type} (s : AppSettings σ) : AppCommand σ → Option (AppSettings σ)
  | .PushStageToWorkBefore stage after_stage_name =>
    match findStageIdx after_stage_name s.busy_stages with
    | none => none
    | some index => some { s with busy_stages := listInsert index stage s.busy_stages }
  | .PushStageToWork stage =>
    some { s with busy_stages := s.busy_stages ++ [stage] }
  | .PushStageToWorkAfter stage before_stage_name =>
    match findStageIdx before_stage_name s.busy_stages with
    | none => none
    | some index => some { s with busy_stages := listInsert (index + 1) stage s.busy_stages }
  | .MakeBusyStageToRest stage_name =>
    match takeFirstStage stage_name s.busy_stages with
    | none => none
    | some (stage, rest) =>
      some { s with busy_stages := rest, spare_stages := s.spare_stages ++ [stage] }
  | .SetBusyStageFrequency stage_name frequency =>
    if s.is_in_busy stage_name then
      some { s with busy_stages := setFirstStageFreq stage_name frequency s.busy_stages }
    else none
  | .AppQuit => some s

/-- Drain the command batch in FIFO order (lines 316-348): a quit command
returns `true` at once, dropping the commands queued after it (the `Drain`
is dropped on early return, clearing the vector); reaching the end returns
`false`.  `none` models an apply-time panic. -/
def applyCmds {σ : Type} : AppSettings σ → List (AppCommand σ) → Option (AppSettings σ × Bool)
  | s, [] => some (s, false)
  | s, .AppQuit :: _ => some (s, true)
  | s, c :: rest =>
    match applyCmd s c with
    | none => none
    | some s2 => applyCmds s2 rest

/-- `AppSettings::apply` (lines 305-349): drains the queued commands and
reports whether a quit was requested.  The queue is empty afterwards in
every case. -/
def AppSettings.apply {σ : Type} (s : AppSettings σ) : Option (AppSettings σ × Bool) :=
  applyCmds { s with commands := [] } s.commands

/-- `AppSettings::take_spare_stage` (lines 385-397): immediate removal from
the privately owned spare list. -/
def AppSettings.take_spare_stage {σ : Type} (s : AppSettings σ) (stage_name : String) :
    AppSettings σ × Option (AppStage σ) :=
  match takeFirstStage stage_name s.spare_stages with
  | none => (s, none)
  | some (stage, rest) => ({ s with spare_stages := rest }, some stage)

/-- `AppSettings::push_stage_to_work_before` (lines 422-439). -/
def AppSettings.push_stage_to_work_before {σ : Type} (s : AppSettings σ)
    (stage : AppStage σ) (after_stage_name : String) :
    AppSettings σ × Except (AppSettingsError σ) Unit :=
  if s.is_in_busy after_stage_name then
    if s.is_in_busy stage.name then (s, .error (.DuplicateNameInBusy stage))
    else if s.is_in_spare stage.name then (s, .error (.DuplicateNameInSpare stage))
    else
      ({ s with commands := s.commands ++ [.PushStageToWorkBefore stage after_stage_name] },
       .ok ())
  else (s, .error (.StageNotExistInBusy after_stage_name (some stage)))

/-- `AppSettings::push_stage_to_work` (lines 441-451). -/
def AppSettings.push_stage_to_work {σ : Type} (s : AppSettings σ) (stage : AppStage σ) :
    AppSettings σ × Except (AppSettingsError σ) Unit :=
  if s.is_in_busy stage.name then (s, .error (.DuplicateNameInBusy stage))
  else if s.is_in_spare stage.name then (s, .error (.DuplicateNameInSpare stage))
  else ({ s with commands := s.commands ++ [.PushStageToWork stage] }, .ok ())

/-- `AppSettings::push_stage_to_work_after` (lines 453-470). -/
def AppSettings.push_stage_to_work_after {σ : Type} (s : AppSettings σ)
    (stage : AppStage σ) (before_stage_name : String) :
    AppSettings σ × Except (AppSettingsError σ) Unit :=
  if s.is_in_busy before_stage_name then
    if s.is_in_busy stage.name then (s, .error (.DuplicateNameInBusy stage))
    else if s.is_in_spare stage.name then (s, .error (.DuplicateNameInSpare stage))
    else
      ({ s with commands := s.commands ++ [.PushStageToWorkAfter stage before_stage_name] },
       .ok ())
  else (s, .error (.StageNotExistInBusy before_stage_name (some stage)))

/-- `AppSettings::make_spare_stage_work_before` (lines 472-478): the spare
removal happens immediately, before the busy-insertion validation. -/
def AppSettings.make_spare_stage_work_before {σ : Type} (s : AppSettings σ)
    (stage_name after_stage_name : String) :
    AppSettings σ × Except (AppSettingsError σ) Unit :=
  match s.take_spare_stage stage_name with
  | (s2, some stage) => s2.push_stage_to_work_before stage after_stage_name
  | (s2, none) => (s2, .error (.StageNotExistInSpare stage_name none))

/-- `AppSettings::make_spare_stage_work` (lines 480-486). -/
def AppSettings.make_spare_stage_work {σ : Type} (s : AppSettings σ)
    (stage_name : String) : AppSettings σ × Except (AppSettingsError σ) Unit :=
  match s.take_spare_stage stage_name with
  | (s2, some stage) => s2.push_stage_to_work stage
  | (s2, none) => (s2, .error (.StageNotExistInSpare stage_name none))

/-- `AppSettings::make_spare_stage_work_after` (lines 488-494). -/
def AppSettings.make_spare_stage_work_after {σ : Type} (s : AppSettings σ)
    (stage_name before_stage_name : String) :
    AppSettings σ × Except (AppSettingsError σ) Unit :=
  match s.take_spare_stage stage_name with
  | (s2, some stage) => s2.push_stage_to_work_after stage before_stage_name
  | (s2, none) => (s2, .error (.StageNotExistInSpare stage_name none))

/-- `AppSettings::push_stage_to_rest` (lines 496-506): the spare list is
mutated immediately. -/
def AppSettings.push_stage_to_rest {σ : Type} (s : AppSettings σ) (stage : AppStage σ) :
    AppSettings σ × Except (AppSettingsError σ) Unit :=
  if s.is_in_busy stage.name then (s, .error (.DuplicateNameInBusy stage))
  else if s.is_in_spare stage.name then (s, .error (.DuplicateNameInSpare stage))
  else ({ s with spare_stages := s.spare_stages ++ [stage] }, .ok ())

/-- `AppSettings::make_busy_stage_rest` (lines 508-518). -/
def AppSettings.make_busy_stage_rest {σ : Type} (s : AppSettings σ)
    (stage_name : String) : AppSettings σ × Except (AppSettingsError σ) Unit :=
  if s.is_in_busy stage_name then
    ({ s with commands := s.commands ++ [.MakeBusyStageToRest stage_name] }, .ok ())
  else (s, .error (.StageNotExistInBusy stage_name none))

/-- `AppSettings::set_stage_frequency` (lines 520-536): immediate when the
stage is spare, deferred as a command when it is busy. -/
def AppSettings.set_stage_frequency {σ : Type} (s : AppSettings σ)
    (stage_name : String) (frequency : Nat) :
    AppSettings σ × Except (AppSettingsError σ) Unit :=
  if s.is_in_spare stage_name then
    ({ s with spare_stages := setFirstStageFreq stage_name frequency s.spare_stages }, .ok ())
  else if s.is_in_busy stage_name then
    ({ s with commands := s.commands ++ [.SetBusyStageFrequency stage_name frequency] }, .ok ())
  else (s, .error (.StageNotExist stage_name))

/-- `AppSettings::quit` (lines 538-540). -/
def AppSettings.quit {σ : Type} (s : AppSettings σ) : AppSettings σ :=
  { s with commands := s.commands ++ [.AppQuit] }

example : (PulseTimer.new 2).update (1/4) = ({ ticks_per_second := 2, accumulated_time := 1/4 }, false) := by
  norm_num [PulseTimer.new, PulseTimer.update, PulseTimer.interval]

example : (PulseTimer.new 2).update (3/4) = ({ ticks_per_second := 2, accumulated_time := 1/4 }, true) := by
  norm_num [PulseTimer.new, PulseTimer.update, PulseTimer.interval]

/-- The public issuance surface of `AppSettings`, as invoked by schedule
units through the resource store while the loop runs. -/
inductive SettingsCall (σ : Type) where
  | pushBefore (stage : AppStage σ) (after_stage_name : String)
  | push (stage : AppStage σ)
  | pushAfter (stage : AppStage σ) (before_stage_name : String)
  | spareWorkBefore (stage_name after_stage_name : String)
  | spareWork (stage_name : String)
  | spareWorkAfter (stage_name before_stage_name : String)
  | pushRest (stage : AppStage σ)
  | busyRest (stage_name : String)
  | setFreq (stage_name : String) (frequency : Nat)
  | quitCall

/-- Perform one issuance call, keeping the (possibly mutated) state and
discarding the returned `Result` — exactly what a caller that ignores the
error observes. -/
def AppSettings.issue {σ : Type} (s : AppSettings σ) : SettingsCall σ → AppSettings σ
  | .pushBefore stage a => (s.push_stage_to_work_before stage a).1
  | .push stage => (s.push_stage_to_work stage).1
  | .pushAfter stage b => (s.push_stage_to_work_after stage b).1
  | .spareWorkBefore n a => (s.make_spare_stage_work_before n a).1
  | .spareWork n => (s.make_spare_stage_work n).1
  | .spareWorkAfter n b => (s.make_spare_stage_work_after n b).1
  | .pushRest stage => (s.push_stage_to_rest stage).1
  | .busyRest n => (s.make_busy_stage_rest n).1
  | .setFreq n f => (s.set_stage_frequency n f).1
  | .quitCall => s.quit

/-- One play pass (`App::run` lines 55-57): call `play` on every busy stage
in list order, threading the resource store; the stages keep their list
positions, only their timers change in place. -/
def playPass {σ : Type} (delta_time : ℚ) :
    List (AppStage σ) → Resources σ → List (AppStage σ) × Resources σ
  | [], res => ([], res)
  | st :: rest, res =>
    let r := st.play delta_time res
    let rr := playPass delta_time rest r.2
    (r.1 :: rr.1, rr.2)

/-- The `while !apply_and_ask_quit { play pass }` loop of `App::run`
(lines 54-58), driven by fuel.  `script i` is the list of issuance calls the
process units make during iteration `i`'s play pass (appended to the
settings state after the pass), `deltas i` the frame delta of iteration `i`.
Returns the settings state after the apply that reported quit, the final
resource store, and one entry per completed iteration: the names of the busy
stages played, in play order.  `none` models an apply-time panic or fuel
exhaustion (a loop observed for too few iterations). -/
def runLoop {σ : Type} (script : Nat → List (SettingsCall σ)) (deltas : Nat → ℚ) :
    Nat → Nat → Resources σ → AppSettings σ →
    Option (AppSettings σ × Resources σ × List (List String))
  | 0, _, _, _ => none
  | fuel + 1, i, res, s =>
    match s.apply with
    | none => none
    | some (s2, true) => some (s2, res, [])
    | some (s2, false) =>
      let pp := playPass (deltas i) s2.busy_stages res
      let s3 := (script i).foldl AppSettings.issue { s2 with busy_stages := pp.1 }
      match runLoop script deltas fuel (i + 1) pp.2 s3 with
      | none => none
      | some (sf, resf, snaps) => some (sf, resf, stageNames pp.1 :: snaps)

/-- `App` (lines 14-17): owns the busy-stage list. -/
structure App (σ : Type) where
  busy_stages : List (AppStage σ)
  deriving DecidableEq

/-- `App::run` (lines 33-63): insert the settings resource, run `init` on
every busy stage in list order (`init_calls` are the issuance calls made by
startup units), then the command-applying play loop, then `free` on every
stage remaining in the busy list.  Returns the final settings state, the
final resource store (after the destroy units ran), and the per-iteration
play snapshots. -/
def App.run {σ : Type} (app : App σ) (fuel : Nat) (init_calls : List (SettingsCall σ))
    (script : Nat → List (SettingsCall σ)) (deltas : Nat → ℚ) :
    Option (AppSettings σ × Resources σ × List (List String)) :=
  let res0 : Resources σ := { published_timer := none, executed := [] }
  let res1 := app.busy_stages.foldl (fun r st => st.init r) res0
  let s0 : AppSettings σ :=
    { busy_stages := app.busy_stages, spare_stages := [], commands := [] }
  let s1 := init_calls.foldl AppSettings.issue s0
  match runLoop script deltas fuel 0 res1 s1 with
  | none => none
  | some (sf, resf, snaps) =>
    some (sf, sf.busy_stages.foldl (fun r st => st.free r) resf, snaps)

/-- Life-cycle call events observable from outside a run: `init`, `play` and
`free` calls, tagged by stage name. -/
inductive Event where
  | initEv (stage_name : String)
  | playEv (stage_name : String)
  | freeEv (stage_name : String)
  deriving DecidableEq

/-- The life-cycle call trace of a completed run: the init pass over the
initial busy list, each iteration's play pass in its busy-list order, and
the free pass over the busy list left at exit. -/
def runTrace {σ : Type} (app : App σ)
    (result : AppSettings σ × Resources σ × List (List String)) : List Event :=
  (stageNames app.busy_stages).map Event.initEv
    ++ (result.2.2.map (fun ns => ns.map Event.playEv)).flatten
    ++ (stageNames result.1.busy_stages).map Event.freeEv

/-- `AppStageBuilder` (lines 171-180), with the three phase builders already
abstracted to the unit each compiles to. -/
structure AppStageBuilder (σ : Type) where
  name : String
  frequency : Nat
  startup : σ
  process : σ
  destroy : σ
  deriving DecidableEq

/-- `AppStageBuilder::build` (lines 267-275): a fresh timer at the builder's
frequency plus the three compiled units. -/
def AppStageBuilder.build {σ : Type} (b : AppStageBuilder σ) : AppStage σ :=
  { name := b.name, timer := PulseTimer.new b.frequency,
    startup := b.startup, process := b.process, destroy := b.destroy }

/-- `AppBuildError` (lines 107-110). -/
inductive AppBuildError (σ : Type) where
  | DuplicateName (b : AppStageBuilder σ)
  deriving DecidableEq

/-- `AppBuilder` (lines 66-69). -/
structure AppBuilder (σ : Type) where
  stage_builders : List (AppStageBuilder σ)
  deriving DecidableEq

/-- `AppBuilder::has_stage` (lines 102-104). -/
def AppBuilder.has_stage {σ : Type} (ab : AppBuilder σ) (stage_name : String) : Bool :=
  ab.stage_builders.any (fun b => b.name == stage_name)

/-- `AppBuilder::add_stage_builder` (lines 78-85): rejects duplicate names,
returning the rejected builder inside the error. -/
def AppBuilder.add_stage_builder {σ : Type} (ab : AppBuilder σ) (b : AppStageBuilder σ) :
    Except (AppBuildError σ) (AppBuilder σ) :=
  if ab.has_stage b.name then .error (.DuplicateName b)
  else .ok { stage_builders := ab.stage_builders ++ [b] }

/-- `AppBuilder::build` (lines 98-100): compile every stage builder, in the
order added. -/
def AppBuilder.build {σ : Type} (ab : AppBuilder σ) : App σ :=
  { busy_stages := ab.stage_builders.map AppStageBuilder.build }

theorem stageAny_iff {σ : Type} (l : List (AppStage σ)) (n : String) :
    (l.any fun st => st.name == n) = true ↔ n ∈ stageNames l := by
  induction l with
  | nil => simp [stageNames]
  | cons st rest ih =>
    simp only [List.any_cons, Bool.or_eq_true, beq_iff_eq, stageNames, List.map_cons,
      List.mem_cons, ih]
    constructor
    · rintro (h | h)
      · exact Or.inl h.symm
      · exact Or.inr (by simpa [stageNames] using h)
    · rintro (h | h)
      · exact Or.inl h.symm
      · exact Or.inr (by simpa [stageNames] using h)

theorem is_in_busy_iff {σ : Type} (s : AppSettings σ) (n : String) :
    s.is_in_busy n = true ↔ n ∈ stageNames s.busy_stages :=
  stageAny_iff s.busy_stages n

theorem is_in_spare_iff {σ : Type} (s : AppSettings σ) (n : String) :
    s.is_in_spare n = true ↔ n ∈ stageNames s.spare_stages :=
  stageAny_iff s.spare_stages n

theorem is_in_busy_false {σ : Type} (s : AppSettings σ) (n : String)
    (h : n ∉ stageNames s.busy_stages) : s.is_in_busy n = false := by
  cases hb : s.is_in_busy n with
  | false => rfl
  | true => exact absurd ((is_in_busy_iff s n).mp hb) h

theorem is_in_spare_false {σ : Type} (s : AppSettings σ) (n : String)
    (h : n ∉ stageNames s.spare_stages) : s.is_in_spare n = false := by
  cases hb : s.is_in_spare n with
  | false => rfl
  | true => exact absurd ((is_in_spare_iff s n).mp hb) h

theorem findStageIdx_first {σ : Type} (n : String) (l1 l2 : List (AppStage σ))
    (x : AppStage σ) (h1 : ∀ y ∈ l1, y.name ≠ n) (hx : x.name = n) :
    findStageIdx n (l1 ++ x :: l2) = some l1.length := by
  induction l1 with
  | nil => simp [findStageIdx, hx]
  | cons y rest ih =>
    have hy : y.name ≠ n := h1 y (List.mem_cons_self y rest)
    have ih2 := ih (fun z hz => h1 z (List.mem_cons_of_mem y hz))
    simp [findStageIdx, hy, ih2]

theorem takeFirstStage_first {σ : Type} (n : String) (l1 l2 : List (AppStage σ))
    (x : AppStage σ) (h1 : ∀ y ∈ l1, y.name ≠ n) (hx : x.name = n) :
    takeFirstStage n (l1 ++ x :: l2) = some (x, l1 ++ l2) := by
  induction l1 with
  | nil => simp [takeFirstStage, hx]
  | cons y rest ih =>
    have hy : y.name ≠ n := h1 y (List.mem_cons_self y rest)
    have ih2 := ih (fun z hz => h1 z (List.mem_cons_of_mem y hz))
    simp [takeFirstStage, hy, ih2]

theorem takeFirstStage_not_mem {σ : Type} (n : String) (l : List (AppStage σ))
    (h : ∀ y ∈ l, y.name ≠ n) : takeFirstStage n l = none := by
  induction l with
  | nil => rfl
  | cons y rest ih =>
    have hy : y.name ≠ n := h y (List.mem_cons_self y rest)
    simp only [takeFirstStage, if_neg hy,
      ih (fun z hz => h z (List.mem_cons_of_mem y hz))]

theorem listInsert_at_length {α : Type} (l1 l2 : List α) (x : α) :
    listInsert l1.length x (l1 ++ l2) = l1 ++ x :: l2 := by
  induction l1 with
  | nil => simp [listInsert]
  | cons a rest ih =>
    simp only [listInsert, List.length_cons, List.cons_append, List.take_succ_cons,
      List.drop_succ_cons] at ih ⊢
    simp [listInsert] at ih
    simp [ih]

theorem update_keeps_frequency (t : PulseTimer) (d : ℚ) :
    (t.update d).1.ticks_per_second = t.ticks_per_second := by
  by_cases h : t.interval ≤ t.accumulated_time + d <;> simp [PulseTimer.update, h]

theorem applyCmds_cons {σ : Type} (s : AppSettings σ) (c : AppCommand σ)
    (rest : List (AppCommand σ)) (h : c ≠ .AppQuit) :
    applyCmds s (c :: rest) =
      match applyCmd s c with
      | none => none
      | some s2 => applyCmds s2 rest := by
  cases c
  case AppQuit => exact absurd rfl h
  all_goals rfl

theorem applyCmds_append {σ : Type} (q1 : List (AppCommand σ)) :
    ∀ (s s1 : AppSettings σ), applyCmds s q1 = some (s1, false) →
    ∀ q2, applyCmds s (q1 ++ q2) = applyCmds s1 q2 := by
  induction q1 with
  | nil =>
    intro s s1 h q2
    simp only [applyCmds] at h
    cases h
    simp
  | cons c rest ih =>
    intro s s1 h q2
    by_cases hq : c = AppCommand.AppQuit
    · subst hq; simp [applyCmds] at h
    · rw [applyCmds_cons s c rest hq] at h
      rw [List.cons_append, applyCmds_cons s c (rest ++ q2) hq]
      cases hc : applyCmd s c with
      | none => rw [hc] at h; simp at h
      | some s2 =>
        rw [hc] at h
        exact ih s2 s1 h q2

/-- C8: `AppStage::play` first advances the stage's timer by the frame's
elapsed time — in both branches the returned stage carries the updated
timer, so the accumulator grows even without a tick; exactly when the timer
reports a tick, the updated timer is published into the resource store and
the process unit is executed (appended to the execution log); on no tick the
resource store is returned untouched, so neither the process unit runs nor
does the published timer state change.  `init` and `free` execute the
startup resp. destroy unit unconditionally. -/
theorem play_gated_by_timer {σ : Type} (st : AppStage σ) (d : ℚ) (res : Resources σ) :
    (st.play d res).1 = { st with timer := (st.timer.update d).1 }
    ∧ (st.play d res).2 =
        (if (st.timer.update d).2 then
          { published_timer := some (st.timer.update d).1,
            executed := res.executed ++ [st.process] }
        else res)
    ∧ ((st.play d res).2.executed ≠ res.executed ↔ (st.timer.update d).2 = true)
    ∧ (st.init res).executed = res.executed ++ [st.startup]
    ∧ (st.free res).executed = res.executed ++ [st.destroy] := by
  refine ⟨?_, ?_, ?_, rfl, rfl⟩ <;>
    cases h : (st.timer.update d).2 <;>
      simp [AppStage.play, h]

/-- Concrete stage and state for the apply-time panic scenario of C9. -/
def c9Stage : AppStage Nat :=
  { name := "x", timer := PulseTimer.new 1, startup := 0, process := 1, destroy := 2 }

def c9Start : AppSettings Nat :=
  { busy_stages := [c9Stage], spare_stages := [], commands := [] }

/-- C9: a reachable command-queue state makes the apply phase panic instead
of returning an error.  From a state with the single busy stage `"x"`,
`make_busy_stage_rest "x"` succeeds twice (issuance validates against the
busy list, which the deferred command has not yet changed), queueing two
park commands for the same name; applying them in FIFO order removes the
stage at the first command, and the second command's busy-list lookup
`unwrap`s on a vanished name — modelled by `apply` returning `none`. -/
theorem double_park_apply_panics :
    (c9Start.make_busy_stage_rest "x").2 = .ok ()
    ∧ ((c9Start.make_busy_stage_rest "x").1.make_busy_stage_rest "x").2 = .ok ()
    ∧ ((c9Start.make_busy_stage_rest "x").1.make_busy_stage_rest "x").1.commands =
        [.MakeBusyStageToRest "x", .MakeBusyStageToRest "x"]
    ∧ ((c9Start.make_busy_stage_rest "x").1.make_busy_stage_rest "x").1.apply = none :=
  ⟨rfl, rfl, rfl, rfl⟩

/-- C5: applying a queued insert-before command places the carried stage
immediately before its anchor — the first busy stage bearing the anchor
name — and an insert-after command places it immediately after, for any
prior arrangement `l1 ++ a :: l2` of the busy list. -/
theorem insert_command_places_adjacent {σ : Type} (l1 l2 sp : List (AppStage σ))
    (a x : AppStage σ) (hfirst : ∀ y ∈ l1, y.name ≠ a.name) :
    AppSettings.apply (⟨l1 ++ a :: l2, sp, [.PushStageToWorkBefore x a.name]⟩ : AppSettings σ) =
      some (⟨l1 ++ x :: a :: l2, sp, []⟩, false)
    ∧ AppSettings.apply (⟨l1 ++ a :: l2, sp, [.PushStageToWorkAfter x a.name]⟩ : AppSettings σ) =
      some (⟨l1 ++ a :: x :: l2, sp, []⟩, false) := by
  have hfind : findStageIdx a.name (l1 ++ a :: l2) = some l1.length :=
    findStageIdx_first a.name l1 l2 a hfirst rfl
  constructor
  · simp only [AppSettings.apply]
    rw [applyCmds_cons _ _ _ (by simp)]
    simp only [applyCmd, hfind]
    rw [listInsert_at_length l1 (a :: l2) x]
    rfl
  · simp only [AppSettings.apply]
    rw [applyCmds_cons _ _ _ (by simp)]
    simp only [applyCmd, hfind]
    have h2 : l1 ++ a :: l2 = (l1 ++ [a]) ++ l2 := by simp
    have h3 : l1.length + 1 = (l1 ++ [a]).length := by simp
    rw [h2, h3, listInsert_at_length (l1 ++ [a]) l2 x]
    simp [applyCmds]

/-- C6 (amended): provided the named anchor of the before/after variant
exists in the busy list, each of the three push operations applied to a
stage whose name is already in busy (resp. in spare) fails with
`DuplicateNameInBusy` (resp. `DuplicateNameInSpare`) carrying the original
stage value back unchanged, enqueues no command and leaves the settings
state — busy list, spare list and queue — exactly as it was. -/
theorem duplicate_push_returns_stage {σ : Type} (s : AppSettings σ) (x : AppStage σ)
    (anchor : String) (ha : s.is_in_busy anchor = true) :
    (s.is_in_busy x.name = true →
      s.push_stage_to_work x = (s, .error (.DuplicateNameInBusy x))
      ∧ s.push_stage_to_work_before x anchor = (s, .error (.DuplicateNameInBusy x))
      ∧ s.push_stage_to_work_after x anchor = (s, .error (.DuplicateNameInBusy x)))
    ∧ (s.is_in_busy x.name = false → s.is_in_spare x.name = true →
      s.push_stage_to_work x = (s, .error (.DuplicateNameInSpare x))
      ∧ s.push_stage_to_work_before x anchor = (s, .error (.DuplicateNameInSpare x))
      ∧ s.push_stage_to_work_after x anchor = (s, .error (.DuplicateNameInSpare x))) := by
  constructor
  · intro hb
    refine ⟨?_, ?_, ?_⟩ <;>
      simp [AppSettings.push_stage_to_work, AppSettings.push_stage_to_work_before,
        AppSettings.push_stage_to_work_after, ha, hb]
  · intro hb hs
    refine ⟨?_, ?_, ?_⟩ <;>
      simp [AppSettings.push_stage_to_work, AppSettings.push_stage_to_work_before,
        AppSettings.push_stage_to_work_after, ha, hb, hs]

/-- The busy stage named `"a"` for the C6 counterexample. -/
def c6Busy : AppStage Nat :=
  { name := "a", timer := PulseTimer.new 1, startup := 0, process := 0, destroy := 0 }

/-- A second, different stage also named `"a"`. -/
def c6Dup : AppStage Nat :=
  { name := "a", timer := PulseTimer.new 2, startup := 3, process := 4, destroy := 5 }

def c6State : AppSettings Nat :=
  { busy_stages := [c6Busy], spare_stages := [], commands := [] }

/-- C6 counterexample: `"a"` is already busy, yet pushing a second stage
named `"a"` with the nonexistent anchor `"zzz"` fails with
`StageNotExistInBusy` — the anchor check precedes the duplicate check — so
the claim that a duplicate name always yields a `DuplicateName` error is
false; the stage is still carried back, but inside the other error. -/
theorem push_before_missing_anchor_cex :
    c6State.is_in_busy c6Dup.name = true
    ∧ (c6State.push_stage_to_work_before c6Dup "zzz").2 =
        .error (.StageNotExistInBusy "zzz" (some c6Dup))
    ∧ (c6State.push_stage_to_work_before c6Dup "zzz").2 ≠
        .error (.DuplicateNameInBusy c6Dup)
    ∧ (c6State.push_stage_to_work_before c6Dup "zzz").2 ≠
        .error (.DuplicateNameInSpare c6Dup) := by
  refine ⟨rfl, rfl, ?_, ?_⟩ <;>
    simp [c6State, c6Dup, c6Busy, AppSettings.push_stage_to_work_before,
      AppSettings.is_in_busy]

/-- C10: activating a spare stage with `make_spare_stage_work_before` (or
`_after`) when the anchor is absent from the busy list returns a
`StageNotExistInBusy` error carrying the stage value — nothing is silently
dropped — but the stage has already been removed from the spare list when
the error is returned: the call mutates state even though it fails, and the
caller must re-insert the carried stage to restore the prior state. -/
theorem activate_missing_anchor_mutates_spare {σ : Type} (s : AppSettings σ)
    (sp1 sp2 : List (AppStage σ)) (x : AppStage σ) (anchor : String)
    (hsp : s.spare_stages = sp1 ++ x :: sp2)
    (hfirst : ∀ y ∈ sp1, y.name ≠ x.name)
    (ha : anchor ∉ stageNames s.busy_stages) :
    s.make_spare_stage_work_before x.name anchor =
      ({ s with spare_stages := sp1 ++ sp2 }, .error (.StageNotExistInBusy anchor (some x)))
    ∧ s.make_spare_stage_work_after x.name anchor =
      ({ s with spare_stages := sp1 ++ sp2 }, .error (.StageNotExistInBusy anchor (some x))) := by
  have htake : takeFirstStage x.name s.spare_stages = some (x, sp1 ++ sp2) := by
    rw [hsp]; exact takeFirstStage_first x.name sp1 sp2 x hfirst rfl
  have hbusy : AppSettings.is_in_busy { s with spare_stages := sp1 ++ sp2 } anchor = false :=
    is_in_busy_false _ anchor ha
  constructor
  · simp only [AppSettings.make_spare_stage_work_before, AppSettings.take_spare_stage, htake]
    simp [AppSettings.push_stage_to_work_before, hbusy]
  · simp only [AppSettings.make_spare_stage_work_after, AppSettings.take_spare_stage, htake]
    simp [AppSettings.push_stage_to_work_after, hbusy]

/-- C7: parking a busy stage and re-activating it round-trips the very same
stage value back into the busy list.  Starting from a state whose busy list
is `b1 ++ x :: b2`, with `x.name` unique across busy and spare and an empty
queue: issuing `make_busy_stage_rest` succeeds; applying moves `x` to the
end of the spare list; `make_spare_stage_work` then succeeds (removing `x`
from spare immediately and queueing its re-insertion); a further apply
appends the identical value `x` — same name, same timer (hence frequency),
same startup/process/destroy units — to the busy list. -/
theorem park_then_activate_roundtrip {σ : Type} (b1 b2 sp : List (AppStage σ))
    (x : AppStage σ)
    (h1 : ∀ y ∈ b1, y.name ≠ x.name)
    (h2 : ∀ y ∈ b2, y.name ≠ x.name)
    (hsp : ∀ y ∈ sp, y.name ≠ x.name) :
    ∃ s1 s2 s3 : AppSettings σ,
      AppSettings.make_busy_stage_rest ⟨b1 ++ x :: b2, sp, []⟩ x.name = (s1, .ok ())
      ∧ s1.apply = some (s2, false)
      ∧ s2.make_spare_stage_work x.name = (s3, .ok ())
      ∧ s3.apply = some (⟨(b1 ++ b2) ++ [x], sp, []⟩, false) := by
  refine ⟨⟨b1 ++ x :: b2, sp, [.MakeBusyStageToRest x.name]⟩,
    ⟨b1 ++ b2, sp ++ [x], []⟩, ⟨b1 ++ b2, sp, [.PushStageToWork x]⟩, ?_, ?_, ?_, ?_⟩
  · have hb : AppSettings.is_in_busy (⟨b1 ++ x :: b2, sp, []⟩ : AppSettings σ) x.name = true := by
      rw [is_in_busy_iff]
      simp [stageNames]
    simp [AppSettings.make_busy_stage_rest, hb]
  · have htake : takeFirstStage x.name (b1 ++ x :: b2) = some (x, b1 ++ b2) :=
      takeFirstStage_first x.name b1 b2 x h1 rfl
    simp only [AppSettings.apply]
    rw [applyCmds_cons _ _ _ (by simp)]
    simp [applyCmd, htake, applyCmds]
  · have htake : takeFirstStage x.name (sp ++ [x]) = some (x, sp ++ []) :=
      takeFirstStage_first x.name sp [] x hsp rfl
    have hbusy : AppSettings.is_in_busy (⟨b1 ++ b2, sp, []⟩ : AppSettings σ) x.name = false := by
      apply is_in_busy_false
      simp only [stageNames, List.map_append, List.mem_append]
      rintro (hmem | hmem) <;>
        · rw [List.mem_map] at hmem
          obtain ⟨y, hy, hyn⟩ := hmem
          first
          | exact h1 y hy hyn
          | exact h2 y hy hyn
    have hspare : AppSettings.is_in_spare (⟨b1 ++ b2, sp, []⟩ : AppSettings σ) x.name = false := by
      apply is_in_spare_false
      simp only [stageNames, List.mem_map]
      rintro ⟨y, hy, hyn⟩
      exact hsp y hy hyn
    simp only [AppSettings.make_spare_stage_work, AppSettings.take_spare_stage, htake]
    simp [AppSettings.push_stage_to_work, hbusy, hspare]
  · simp only [AppSettings.apply]
    rw [applyCmds_cons _ _ _ (by simp)]
    simp [applyCmd, applyCmds]

/-- C2 (amended): `push_stage_to_work` validates the pushed stage's name
against the current busy and spare lists only; the pending command queue is
never consulted.  With a name absent from both lists the push succeeds and
appends its command whatever commands are already pending — including
insertion commands carrying the very same name — while a name present in
busy (resp. spare) is rejected with the stage returned inside the error and
the state left unchanged.  Consequently the uniqueness invariant over
`busy ∪ spare ∪ pending-command names` is not maintained by issuance-time
validation (see the counterexample for duplicates surviving to apply). -/
theorem push_validation_ignores_queue {σ : Type} (s : AppSettings σ) (x : AppStage σ) :
    (x.name ∉ stageNames s.busy_stages → x.name ∉ stageNames s.spare_stages →
      s.push_stage_to_work x =
        ({ s with commands := s.commands ++ [.PushStageToWork x] }, .ok ()))
    ∧ (x.name ∈ stageNames s.busy_stages →
      s.push_stage_to_work x = (s, .error (.DuplicateNameInBusy x)))
    ∧ (x.name ∉ stageNames s.busy_stages → x.name ∈ stageNames s.spare_stages →
      s.push_stage_to_work x = (s, .error (.DuplicateNameInSpare x))) := by
  refine ⟨?_, ?_, ?_⟩
  · intro hb hs
    simp [AppSettings.push_stage_to_work, is_in_busy_false s x.name hb,
      is_in_spare_false s x.name hs]
  · intro hb
    simp [AppSettings.push_stage_to_work, (is_in_busy_iff s x.name).mpr hb]
  · intro hb hs
    simp [AppSettings.push_stage_to_work, is_in_busy_false s x.name hb,
      (is_in_spare_iff s x.name).mpr hs]

/-- First stage named `"n"` for the C2 counterexample. -/
def c2X : AppStage Nat :=
  { name := "n", timer := PulseTimer.new 1, startup := 0, process := 0, destroy := 0 }

/-- A different stage, also named `"n"`. -/
def c2Y : AppStage Nat :=
  { name := "n", timer := PulseTimer.new 2, startup := 1, process := 1, destroy := 1 }

def c2S0 : AppSettings Nat := ⟨[], [], []⟩

/-- C2 counterexample: from the empty state, pushing `c2X` (named `"n"`)
succeeds and leaves a pending insertion command carrying `"n"`; pushing
`c2Y` (also named `"n"`) then ALSO succeeds — no error, although `"n"` is
already carried by a pending insertion command — and applying the queue
yields a busy list with two stages named `"n"`.  This refutes both the
claimed eager validation against pending-command names and the claimed
impossibility of duplicate names in `busy ∪ spare` after apply. -/
theorem duplicate_pending_push_cex :
    (c2S0.push_stage_to_work c2X).2 = .ok ()
    ∧ (c2S0.push_stage_to_work c2X).1.commands = [.PushStageToWork c2X]
    ∧ ((c2S0.push_stage_to_work c2X).1.push_stage_to_work c2Y).2 = .ok ()
    ∧ ((c2S0.push_stage_to_work c2X).1.push_stage_to_work c2Y).1.apply =
        some (⟨[c2X, c2Y], [], []⟩, false)
    ∧ stageNames [c2X, c2Y] = ["n", "n"] :=
  ⟨rfl, rfl, rfl, rfl, rfl⟩

/-- C1 (amended): when the drained batch `q1 ++ AppQuit :: q2` is applied at
the start of an iteration, every command queued before the quit (`q1`) is
applied, in order (hypothesis `happ` records their clean application
yielding `s1`), the commands after the quit (`q2`) are discarded unapplied,
and `apply` reports quit.  The loop then exits at the apply step itself: the
iteration in which quit is applied contributes no play pass — the loop
returns with zero further play snapshots — so play is NOT called in that
iteration.  (A quit issued during iteration N is only applied at the start
of iteration N+1, which is why iteration N's play pass still completes in
full; no further iterations occur.) -/
theorem quit_batch_applies_prefix_then_exits {σ : Type} (s s1 : AppSettings σ)
    (q1 q2 : List (AppCommand σ))
    (hcmds : s.commands = q1 ++ .AppQuit :: q2)
    (happ : applyCmds { s with commands := [] } q1 = some (s1, false))
    (script : Nat → List (SettingsCall σ)) (deltas : Nat → ℚ)
    (fuel i : Nat) (res : Resources σ) :
    s.apply = some (s1, true)
    ∧ runLoop script deltas (fuel + 1) i res s = some (s1, res, []) := by
  have h1 : s.apply = some (s1, true) := by
    rw [AppSettings.apply, hcmds, applyCmds_append q1 _ s1 happ (.AppQuit :: q2)]
    rfl
  refine ⟨h1, ?_⟩
  rw [runLoop, h1]

/-- The single busy stage for the C1 counterexample. -/
def c1Stage : AppStage Nat :=
  { name := "a", timer := PulseTimer.new 1, startup := 0, process := 1, destroy := 2 }

def c1App : App Nat := ⟨[c1Stage]⟩

/-- C1 counterexample: the startup pass issues `quit`, so the batch applied
at the start of iteration 0 contains a quit command while stage `"a"` is
busy.  The run exits with zero play snapshots: the trace is
`[init "a", free "a"]` and contains no play event at all, refuting the
claim that every busy stage still has `play` called once in the iteration
in which quit is applied — the loop exits at the apply step, before that
iteration's play pass. -/
theorem quit_skips_play_pass_cex :
    c1App.run 5 [.quitCall] (fun _ => []) (fun _ => 1) =
      some (⟨[c1Stage], [], []⟩, ⟨none, [0, 2]⟩, [])
    ∧ runTrace c1App (⟨[c1Stage], [], []⟩, ⟨none, [0, 2]⟩, ([] : List (List String))) =
        [Event.initEv "a", Event.freeEv "a"]
    ∧ Event.playEv "a" ∉
        runTrace c1App (⟨[c1Stage], [], []⟩, ⟨none, [0, 2]⟩, ([] : List (List String))) := by
  refine ⟨rfl, rfl, ?_⟩
  decide

theorem initFold_executed {σ : Type} (l : List (AppStage σ)) :
    ∀ res : Resources σ,
      (l.foldl (fun r st => AppStage.init st r) res).executed =
        res.executed ++ l.map AppStage.startup := by
  induction l with
  | nil => intro res; simp
  | cons st rest ih =>
    intro res
    rw [List.foldl_cons, ih]
    simp [AppStage.init]

theorem freeFold_executed {σ : Type} (l : List (AppStage σ)) :
    ∀ res : Resources σ,
      (l.foldl (fun r st => AppStage.free st r) res).executed =
        res.executed ++ l.map AppStage.destroy := by
  induction l with
  | nil => intro res; simp
  | cons st rest ih =>
    intro res
    rw [List.foldl_cons, ih]
    simp [AppStage.free]

theorem playPass_executed {σ : Type} (d : ℚ) (l : List (AppStage σ)) :
    ∀ res : Resources σ, ∃ mid,
      (playPass d l res).2.executed = res.executed ++ mid := by
  induction l with
  | nil => intro res; exact ⟨[], by simp [playPass]⟩
  | cons st rest ih =>
    intro res
    cases ht : (st.timer.update d).2 with
    | false =>
      obtain ⟨mid, hmid⟩ := ih res
      refine ⟨mid, ?_⟩
      simp only [playPass, AppStage.play, ht]
      simpa using hmid
    | true =>
      obtain ⟨mid, hmid⟩ :=
        ih { published_timer := some (st.timer.update d).1,
             executed := res.executed ++ [st.process] }
      refine ⟨st.process :: mid, ?_⟩
      simp only [playPass, AppStage.play, ht]
      simpa using hmid

theorem run_extract {σ : Type} (app : App σ) (fuel : Nat)
    (init_calls : List (SettingsCall σ)) (script : Nat → List (SettingsCall σ))
    (deltas : Nat → ℚ) (sf : AppSettings σ) (resf : Resources σ)
    (snaps : List (List String))
    (h : app.run fuel init_calls script deltas = some (sf, resf, snaps)) :
    ∃ r, runLoop script deltas fuel 0
        (app.busy_stages.foldl (fun x st => AppStage.init st x) ⟨none, []⟩)
        (init_calls.foldl AppSettings.issue ⟨app.busy_stages, [], []⟩) = some (sf, r, snaps)
      ∧ resf = sf.busy_stages.foldl (fun x st => AppStage.free st x) r := by
  rw [App.run] at h
  split at h
  · exact absurd h (by simp)
  · rename_i sf0 resf0 snaps0 heq
    rw [Option.some_inj, Prod.mk.injEq, Prod.mk.injEq] at h
    obtain ⟨h1, h2, h3⟩ := h
    subst h1
    subst h3
    exact ⟨resf0, heq, h2.symm⟩

theorem runLoop_executed_extends {σ : Type} (script : Nat → List (SettingsCall σ))
    (deltas : Nat → ℚ) (fuel : Nat) :
    ∀ (i : Nat) (res : Resources σ) (s sf : AppSettings σ) (resf : Resources σ)
      (snaps : List (List String)),
      runLoop script deltas fuel i res s = some (sf, resf, snaps) →
      ∃ mid, resf.executed = res.executed ++ mid := by
  induction fuel with
  | zero => intro i res s sf resf snaps h; simp [runLoop] at h
  | succ fuel ih =>
    intro i res s sf resf snaps h
    rw [runLoop] at h
    cases ha : s.apply with
    | none => rw [ha] at h; simp at h
    | some p =>
      rw [ha] at h
      obtain ⟨s2, quitFlag⟩ := p
      cases quitFlag with
      | true =>
        simp only at h
        cases h
        exact ⟨[], by simp⟩
      | false =>
        simp only at h
        cases hrec : runLoop script deltas fuel (i + 1)
            (playPass (deltas i) s2.busy_stages res).2
            ((script i).foldl AppSettings.issue
              { s2 with busy_stages := (playPass (deltas i) s2.busy_stages res).1 }) with
        | none => rw [hrec] at h; simp at h
        | some q =>
          rw [hrec] at h
          obtain ⟨sf2, resf2, snaps2⟩ := q
          simp only at h
          cases h
          obtain ⟨mid1, hmid1⟩ := playPass_executed (deltas i) s2.busy_stages res
          obtain ⟨mid2, hmid2⟩ := ih (i + 1) _ _ _ _ _ hrec
          exact ⟨mid1 ++ mid2, by rw [hmid2, hmid1, List.append_assoc]⟩

/-- C4: for a Builder holding stage builders added in order a, b, c (each
accepted by `add_stage_builder`, names distinct), a completed `run` has the
trace shape: `init` once per stage in order a, b, c; then, per completed
iteration, one play pass whose play calls are exactly the snapshot of that
iteration's busy list in its current order (only play events occur between
init and shutdown); after quit, `free` once per stage remaining in the busy
list, in list order — and a stage left parked in the spare list at shutdown
(its name absent from the remaining busy list) never has `free` called on
it.  The final conjunct ties the trace to the run's execution log: the
executed units are the three startup units in order a, b, c, then
mid-run process executions, and finally exactly the destroy units of the
stages remaining busy, in list order. -/
theorem run_trace_structure {σ : Type} (b1 b2 b3 : AppStageBuilder σ)
    (h21 : b2.name ≠ b1.name) (h31 : b3.name ≠ b1.name) (h32 : b3.name ≠ b2.name)
    (fuel : Nat) (init_calls : List (SettingsCall σ))
    (script : Nat → List (SettingsCall σ)) (deltas : Nat → ℚ)
    (sf : AppSettings σ) (resf : Resources σ) (snaps : List (List String))
    (hrun : (AppBuilder.build ⟨[b1, b2, b3]⟩).run fuel init_calls script deltas =
      some (sf, resf, snaps)) :
    (AppBuilder.add_stage_builder ⟨[]⟩ b1 = .ok ⟨[b1]⟩
      ∧ AppBuilder.add_stage_builder ⟨[b1]⟩ b2 = .ok ⟨[b1, b2]⟩
      ∧ AppBuilder.add_stage_builder ⟨[b1, b2]⟩ b3 = .ok ⟨[b1, b2, b3]⟩)
    ∧ runTrace (AppBuilder.build ⟨[b1, b2, b3]⟩) (sf, resf, snaps) =
        [Event.initEv b1.name, Event.initEv b2.name, Event.initEv b3.name]
          ++ (snaps.map (fun ns => ns.map Event.playEv)).flatten
          ++ (stageNames sf.busy_stages).map Event.freeEv
    ∧ (∀ y ∈ sf.spare_stages, y.name ∉ stageNames sf.busy_stages →
        Event.freeEv y.name ∉ runTrace (AppBuilder.build ⟨[b1, b2, b3]⟩) (sf, resf, snaps))
    ∧ ∃ mid, resf.executed =
        ([b1.startup, b2.startup, b3.startup] ++ mid)
          ++ sf.busy_stages.map AppStage.destroy := by
  have e21 : (b1.name == b2.name) = false := beq_eq_false_iff_ne.mpr (Ne.symm h21)
  have e31 : (b1.name == b3.name) = false := beq_eq_false_iff_ne.mpr (Ne.symm h31)
  have e32 : (b2.name == b3.name) = false := beq_eq_false_iff_ne.mpr (Ne.symm h32)
  refine ⟨⟨?_, ?_, ?_⟩, ?_, ?_, ?_⟩
  · simp [AppBuilder.add_stage_builder, AppBuilder.has_stage]
  · simp [AppBuilder.add_stage_builder, AppBuilder.has_stage, e21]
  · simp [AppBuilder.add_stage_builder, AppBuilder.has_stage, e31, e32]
  · simp [runTrace, AppBuilder.build, AppStageBuilder.build, stageNames]
  · intro y hy hname
    simp only [runTrace, List.mem_append, not_or, List.mem_map, List.mem_flatten]
    refine ⟨⟨?_, ?_⟩, ?_⟩
    · rintro ⟨n, hn, heq⟩
      exact Event.noConfusion heq
    · rintro ⟨l, ⟨ns, hns, rfl⟩, hmem⟩
      rw [List.mem_map] at hmem
      obtain ⟨n, hn, heq⟩ := hmem
      exact Event.noConfusion heq
    · rintro ⟨n, hn, heq⟩
      cases heq
      exact hname hn
  · obtain ⟨r, hL, hfree⟩ := run_extract _ _ _ _ _ _ _ _ hrun
    obtain ⟨mid, hmid⟩ := runLoop_executed_extends script deltas fuel 0 _ _ _ _ _ hL
    refine ⟨mid, ?_⟩
    rw [hfree, freeFold_executed, hmid]
    congr 1

theorem interval_pos (t : PulseTimer) (hf : 0 < t.ticks_per_second) : 0 < t.interval := by
  rw [PulseTimer.interval]
  have h : (0 : ℚ) < (t.ticks_per_second : ℚ) := by exact_mod_cast hf
  positivity

theorem update_invariant (t : PulseTimer) (d : ℚ) (h0 : 0 ≤ t.accumulated_time)
    (h1 : t.accumulated_time < t.interval) (hd0 : 0 ≤ d) (hd1 : d ≤ t.interval) :
    (t.update d).1.ticks_per_second = t.ticks_per_second
    ∧ 0 ≤ (t.update d).1.accumulated_time
    ∧ (t.update d).1.accumulated_time < t.interval
    ∧ (t.update d).1.accumulated_time =
        t.accumulated_time + d - t.interval * (if (t.update d).2 then 1 else 0) := by
  by_cases hc : t.interval ≤ t.accumulated_time + d
  · refine ⟨?_, ?_, ?_, ?_⟩ <;> simp [PulseTimer.update, hc] <;> linarith
  · refine ⟨?_, ?_, ?_, ?_⟩ <;> simp [PulseTimer.update, hc] <;> linarith

theorem runUpdates_invariant (ds : List ℚ) :
    ∀ t : PulseTimer, 0 < t.ticks_per_second →
      0 ≤ t.accumulated_time → t.accumulated_time < t.interval →
      (∀ d ∈ ds, 0 ≤ d ∧ d ≤ t.interval) →
      (runUpdates t ds).1.ticks_per_second = t.ticks_per_second
      ∧ 0 ≤ (runUpdates t ds).1.accumulated_time
      ∧ (runUpdates t ds).1.accumulated_time < t.interval
      ∧ (runUpdates t ds).1.accumulated_time =
          t.accumulated_time + ds.sum - t.interval * ((runUpdates t ds).2 : ℚ) := by
  induction ds with
  | nil =>
    intro t _ h0 h1 _
    exact ⟨rfl, h0, h1, by simp [runUpdates]⟩
  | cons d rest ih =>
    intro t hf h0 h1 hds
    obtain ⟨hd0, hd1⟩ := hds d (List.mem_cons_self d rest)
    obtain ⟨u1, u2, u3, u4⟩ := update_invariant t d h0 h1 hd0 hd1
    have hIeq : (t.update d).1.interval = t.interval := by
      rw [PulseTimer.interval, PulseTimer.interval, u1]
    have hf2 : 0 < (t.update d).1.ticks_per_second := by rw [u1]; exact hf
    obtain ⟨r1, r2, r3, r4⟩ := ih (t.update d).1 hf2 u2 (by rw [hIeq]; exact u3)
      (fun d2 hd2 => by rw [hIeq]; exact hds d2 (List.mem_cons_of_mem d hd2))
    have hrw : runUpdates t (d :: rest) =
        ((runUpdates (t.update d).1 rest).1,
          (if (t.update d).2 then 1 else 0) + (runUpdates (t.update d).1 rest).2) := rfl
    refine ⟨?_, ?_, ?_, ?_⟩
    · rw [hrw]; exact r1.trans u1
    · rw [hrw]; exact r2
    · rw [hrw]; rw [← hIeq]; exact r3
    · rw [hrw]
      simp only [List.sum_cons]
      rw [r4, hIeq, u4] at *
      cases h : (t.update d).2 <;> simp [h] <;> push_cast <;> ring

/-- C3 (amended): for a timer with positive frequency, initial leftover in
`[0, interval)`, and any sequence of update calls whose individual delta
times are each non-negative and AT MOST the interval `1/f`, the total number
of ticks reported equals `⌊(leftover_0 + T) * f⌋` where `T` is the sum of
the deltas, and after every individual call the accumulated leftover is
strictly below the interval.  The per-call bound on the delta is necessary:
update subtracts at most one interval per call and reports at most one
tick, so a single delta larger than the interval breaks both the floor
formula and the leftover invariant (see the counterexample). -/
theorem pulse_timer_tick_count (t : PulseTimer) (hf : 0 < t.ticks_per_second)
    (h0 : 0 ≤ t.accumulated_time) (h1 : t.accumulated_time < t.interval)
    (ds : List ℚ) (hds : ∀ d ∈ ds, 0 ≤ d ∧ d ≤ t.interval) :
    ((runUpdates t ds).2 : ℤ) =
      ⌊(t.accumulated_time + ds.sum) * (t.ticks_per_second : ℚ)⌋
    ∧ ∀ p q, ds = p ++ q → (runUpdates t p).1.accumulated_time < t.interval := by
  obtain ⟨_, h2, h3, h4⟩ := runUpdates_invariant ds t hf h0 h1 hds
  constructor
  · have hFpos : (0:ℚ) < (t.ticks_per_second : ℚ) := by exact_mod_cast hf
    have hIF : t.interval * (t.ticks_per_second : ℚ) = 1 := by
      rw [PulseTimer.interval]
      field_simp
    have e1 : t.interval * ((runUpdates t ds).2 : ℚ) ≤
        t.accumulated_time + ds.sum := by linarith
    have e2 : t.accumulated_time + ds.sum <
        t.interval * (((runUpdates t ds).2 : ℚ) + 1) := by
      rw [mul_add, mul_one]
      linarith
    have e3 : ((runUpdates t ds).2 : ℚ) ≤
        (t.accumulated_time + ds.sum) * (t.ticks_per_second : ℚ) := by
      nlinarith [mul_le_mul_of_nonneg_right e1 hFpos.le]
    have e4 : (t.accumulated_time + ds.sum) * (t.ticks_per_second : ℚ) <
        ((runUpdates t ds).2 : ℚ) + 1 := by
      nlinarith [mul_lt_mul_of_pos_right e2 hFpos]
    have hfl : ⌊(t.accumulated_time + ds.sum) * (t.ticks_per_second : ℚ)⌋ =
        (((runUpdates t ds).2 : ℕ) : ℤ) := by
      rw [Int.floor_eq_iff]
      constructor
      · push_cast
        exact e3
      · push_cast
        exact e4
    exact hfl.symm
  · intro p q hpq
    have hds2 : ∀ d ∈ p, 0 ≤ d ∧ d ≤ t.interval := fun d hd =>
      hds d (by rw [hpq]; exact List.mem_append_left q hd)
    exact (runUpdates_invariant p t hf h0 h1 hds2).2.2.1

/-- C3 counterexample: frequency 1 (interval 1) and initial leftover 0 — both
satisfying the claim's premises — with a single update call of delta 2.
The call reports one tick, but `⌊(0 + 2) * 1⌋ = 2`, so the claimed total
`floor((T + leftover_0) / (1/f))` is violated; and the leftover after the
call is 1, not strictly below the interval.  Only one interval is
subtracted and one tick reported per call, however far the accumulator ran
ahead. -/
theorem pulse_timer_large_delta_cex :
    (runUpdates { ticks_per_second := 1, accumulated_time := 0 } [2]).2 = 1
    ∧ ((runUpdates { ticks_per_second := 1, accumulated_time := 0 } [2]).2 : ℤ) ≠
        ⌊(((0:ℚ) + ([(2:ℚ)].sum)) * ((1:Nat) : ℚ))⌋
    ∧ ¬ ((runUpdates { ticks_per_second := 1, accumulated_time := 0 } [2]).1.accumulated_time
        < PulseTimer.interval { ticks_per_second := 1, accumulated_time := 0 }) := by
  have hu : PulseTimer.update { ticks_per_second := 1, accumulated_time := 0 } 2 =
      ({ ticks_per_second := 1, accumulated_time := 1 }, true) := by
    norm_num [PulseTimer.update, PulseTimer.interval]
  refine ⟨?_, ?_, ?_⟩
  · simp [runUpdates, hu]
  · simp only [runUpdates, hu]
    norm_num
  · simp only [runUpdates, hu]
    norm_num [PulseTimer.interval]

/-- Stage carried by the pending command of the C1 witness. -/
def w1Y : AppStage Nat :=
  { name := "y", timer := PulseTimer.new 1, startup := 7, process := 8, destroy := 9 }

def w1S : AppSettings Nat :=
  ⟨[], [], [.PushStageToWork w1Y, .AppQuit, .MakeBusyStageToRest "y"]⟩

theorem quit_batch_applies_prefix_then_exits_witness :
    (w1S.commands =
      [AppCommand.PushStageToWork w1Y] ++ .AppQuit :: [.MakeBusyStageToRest "y"]
      ∧ applyCmds { w1S with commands := [] } [AppCommand.PushStageToWork w1Y] =
          some (⟨[w1Y], [], []⟩, false))
    ∧ w1S.apply = some (⟨[w1Y], [], []⟩, true)
    ∧ runLoop (fun _ => ([] : List (SettingsCall Nat))) (fun _ => 1) (3 + 1) 0
        ⟨none, []⟩ w1S = some (⟨[w1Y], [], []⟩, ⟨none, []⟩, []) :=
  ⟨⟨rfl, rfl⟩,
    quit_batch_applies_prefix_then_exits w1S ⟨[w1Y], [], []⟩
      [AppCommand.PushStageToWork w1Y] [.MakeBusyStageToRest "y"] rfl rfl
      (fun _ => []) (fun _ => 1) 3 0 ⟨none, []⟩⟩

def w2S : AppSettings Nat := ⟨[], [], [.PushStageToWork c2X]⟩

theorem push_validation_ignores_queue_witness :
    (c2Y.name ∉ stageNames w2S.busy_stages
      ∧ c2Y.name ∉ stageNames w2S.spare_stages)
    ∧ w2S.push_stage_to_work c2Y =
        (⟨[], [], [.PushStageToWork c2X, .PushStageToWork c2Y]⟩, .ok ()) :=
  ⟨⟨by simp [stageNames, w2S], by simp [stageNames, w2S]⟩,
    (push_validation_ignores_queue w2S c2Y).1
      (by simp [stageNames, w2S]) (by simp [stageNames, w2S])⟩

def w3T : PulseTimer := { ticks_per_second := 2, accumulated_time := 0 }

theorem pulse_timer_tick_count_witness :
    (0 < w3T.ticks_per_second
      ∧ 0 ≤ w3T.accumulated_time
      ∧ w3T.accumulated_time < w3T.interval
      ∧ ∀ d ∈ [(1:ℚ)/4, 1/2, 1/4], 0 ≤ d ∧ d ≤ w3T.interval)
    ∧ ((runUpdates w3T [(1:ℚ)/4, 1/2, 1/4]).2 : ℤ) =
        ⌊(w3T.accumulated_time + [(1:ℚ)/4, 1/2, 1/4].sum) * (w3T.ticks_per_second : ℚ)⌋
    ∧ ∀ p q, [(1:ℚ)/4, 1/2, 1/4] = p ++ q →
        (runUpdates w3T p).1.accumulated_time < w3T.interval :=
  ⟨⟨by norm_num [w3T], by norm_num [w3T], by norm_num [w3T, PulseTimer.interval],
      by norm_num [w3T, PulseTimer.interval]⟩,
    pulse_timer_tick_count w3T (by norm_num [w3T]) (by norm_num [w3T])
      (by norm_num [w3T, PulseTimer.interval]) [(1:ℚ)/4, 1/2, 1/4]
      (by norm_num [w3T, PulseTimer.interval])⟩

def w4B1 : AppStageBuilder Nat := ⟨"a", 1, 0, 1, 2⟩

def w4B2 : AppStageBuilder Nat := ⟨"b", 1, 3, 4, 5⟩

def w4B3 : AppStageBuilder Nat := ⟨"c", 1, 6, 7, 8⟩

def w4Sf : AppSettings Nat := ⟨[w4B1.build, w4B2.build, w4B3.build], [], []⟩

def w4Resf : Resources Nat := ⟨none, [0, 3, 6, 2, 5, 8]⟩

theorem run_trace_structure_witness :
    (w4B2.name ≠ w4B1.name ∧ w4B3.name ≠ w4B1.name ∧ w4B3.name ≠ w4B2.name
      ∧ (AppBuilder.build ⟨[w4B1, w4B2, w4B3]⟩).run 1 [.quitCall] (fun _ => [])
          (fun _ => 1) = some (w4Sf, w4Resf, []))
    ∧ (AppBuilder.add_stage_builder ⟨[]⟩ w4B1 = .ok ⟨[w4B1]⟩
      ∧ AppBuilder.add_stage_builder ⟨[w4B1]⟩ w4B2 = .ok ⟨[w4B1, w4B2]⟩
      ∧ AppBuilder.add_stage_builder ⟨[w4B1, w4B2]⟩ w4B3 = .ok ⟨[w4B1, w4B2, w4B3]⟩)
    ∧ runTrace (AppBuilder.build ⟨[w4B1, w4B2, w4B3]⟩) (w4Sf, w4Resf, []) =
        [Event.initEv w4B1.name, Event.initEv w4B2.name, Event.initEv w4B3.name]
          ++ (([] : List (List String)).map (fun ns => ns.map Event.playEv)).flatten
          ++ (stageNames w4Sf.busy_stages).map Event.freeEv
    ∧ (∀ y ∈ w4Sf.spare_stages, y.name ∉ stageNames w4Sf.busy_stages →
        Event.freeEv y.name ∉ runTrace (AppBuilder.build ⟨[w4B1, w4B2, w4B3]⟩)
          (w4Sf, w4Resf, []))
    ∧ ∃ mid, w4Resf.executed =
        ([w4B1.startup, w4B2.startup, w4B3.startup] ++ mid)
          ++ w4Sf.busy_stages.map AppStage.destroy :=
  ⟨⟨by decide, by decide, by decide, rfl⟩,
    (run_trace_structure w4B1 w4B2 w4B3 (by decide) (by decide) (by decide)
      1 [.quitCall] (fun _ => []) (fun _ => 1) w4Sf w4Resf [] rfl).1,
    (run_trace_structure w4B1 w4B2 w4B3 (by decide) (by decide) (by decide)
      1 [.quitCall] (fun _ => []) (fun _ => 1) w4Sf w4Resf [] rfl).2.1,
    (run_trace_structure w4B1 w4B2 w4B3 (by decide) (by decide) (by decide)
      1 [.quitCall] (fun _ => []) (fun _ => 1) w4Sf w4Resf [] rfl).2.2.1,
    (run_trace_structure w4B1 w4B2 w4B3 (by decide) (by decide) (by decide)
      1 [.quitCall] (fun _ => []) (fun _ => 1) w4Sf w4Resf [] rfl).2.2.2⟩

def w5A : AppStage Nat :=
  { name := "anchor", timer := PulseTimer.new 1, startup := 0, process := 0, destroy := 0 }

def w5X : AppStage Nat :=
  { name := "fresh", timer := PulseTimer.new 2, startup := 1, process := 1, destroy := 1 }

theorem insert_command_places_adjacent_witness :
    (∀ y ∈ ([] : List (AppStage Nat)), y.name ≠ w5A.name)
    ∧ (AppSettings.apply
        (⟨[] ++ w5A :: [], [], [.PushStageToWorkBefore w5X w5A.name]⟩ : AppSettings Nat) =
          some (⟨[] ++ w5X :: w5A :: [], [], []⟩, false)
      ∧ AppSettings.apply
        (⟨[] ++ w5A :: [], [], [.PushStageToWorkAfter w5X w5A.name]⟩ : AppSettings Nat) =
          some (⟨[] ++ w5A :: w5X :: [], [], []⟩, false)) :=
  ⟨by simp, insert_command_places_adjacent [] [] [] w5A w5X (by simp)⟩

theorem duplicate_push_returns_stage_witness :
    (c6State.is_in_busy "a" = true ∧ c6State.is_in_busy c6Dup.name = true)
    ∧ (c6State.push_stage_to_work c6Dup = (c6State, .error (.DuplicateNameInBusy c6Dup))
      ∧ c6State.push_stage_to_work_before c6Dup "a" =
          (c6State, .error (.DuplicateNameInBusy c6Dup))
      ∧ c6State.push_stage_to_work_after c6Dup "a" =
          (c6State, .error (.DuplicateNameInBusy c6Dup))) :=
  ⟨⟨rfl, rfl⟩, (duplicate_push_returns_stage c6State c6Dup "a" rfl).1 rfl⟩

def w7X : AppStage Nat :=
  { name := "p", timer := PulseTimer.new 3, startup := 21, process := 22, destroy := 23 }

theorem park_then_activate_roundtrip_witness :
    ((∀ y ∈ ([] : List (AppStage Nat)), y.name ≠ w7X.name)
      ∧ (∀ y ∈ ([] : List (AppStage Nat)), y.name ≠ w7X.name))
    ∧ ∃ s1 s2 s3 : AppSettings Nat,
      AppSettings.make_busy_stage_rest ⟨[] ++ w7X :: [], [], []⟩ w7X.name = (s1, .ok ())
      ∧ s1.apply = some (s2, false)
      ∧ s2.make_spare_stage_work w7X.name = (s3, .ok ())
      ∧ s3.apply = some (⟨([] ++ []) ++ [w7X], [], []⟩, false) :=
  ⟨⟨by simp, by simp⟩,
    park_then_activate_roundtrip [] [] [] w7X (by simp) (by simp) (by simp)⟩

def w8St : AppStage Nat :=
  { name := "t", timer := { ticks_per_second := 1, accumulated_time := 0 },
    startup := 10, process := 11, destroy := 12 }

theorem play_gated_by_timer_witness :
    (w8St.play 1 ⟨none, []⟩).1 = { w8St with timer := (w8St.timer.update 1).1 }
    ∧ (w8St.play 1 ⟨none, []⟩).2 =
        (if (w8St.timer.update 1).2 then
          { published_timer := some (w8St.timer.update 1).1,
            executed := ([] : List Nat) ++ [w8St.process] }
        else ⟨none, []⟩)
    ∧ ((w8St.play 1 ⟨none, []⟩).2.executed ≠ ([] : List Nat) ↔
        (w8St.timer.update 1).2 = true)
    ∧ (w8St.init ⟨none, []⟩).executed = ([] : List Nat) ++ [w8St.startup]
    ∧ (w8St.free ⟨none, []⟩).executed = ([] : List Nat) ++ [w8St.destroy] :=
  play_gated_by_timer w8St 1 ⟨none, []⟩

def w10X : AppStage Nat :=
  { name := "sp", timer := PulseTimer.new 4, startup := 31, process := 32, destroy := 33 }

def w10S : AppSettings Nat := ⟨[], [w10X], []⟩

theorem activate_missing_anchor_mutates_spare_witness :
    (w10S.spare_stages = [] ++ w10X :: []
      ∧ (∀ y ∈ ([] : List (AppStage Nat)), y.name ≠ w10X.name)
      ∧ "z" ∉ stageNames w10S.busy_stages)
    ∧ w10S.make_spare_stage_work_before w10X.name "z" =
        ({ w10S with spare_stages := [] ++ [] },
          .error (.StageNotExistInBusy "z" (some w10X)))
    ∧ w10S.make_spare_stage_work_after w10X.name "z" =
        ({ w10S with spare_stages := [] ++ [] },
          .error (.StageNotExistInBusy "z" (some w10X))) :=
  ⟨⟨rfl, by simp, by simp [stageNames, w10S]⟩,
    (activate_missing_anchor_mutates_spare w10S [] [] w10X "z" rfl (by simp)
      (by simp [stageNames, w10S])).1,
    (activate_missing_anchor_mutates_spare w10S [] [] w10X "z" rfl (by simp)
      (by simp [stageNames, w10S])).2⟩
